import Mathlib

/-!
Verification of the food-resolution and nutrition-aggregation core of the
NutritionLabelMaker repository.

The development shallowly embeds the Python source:

* `FoodSearcher.hybrid_match`, `FoodSearcher.search_usda`,
  `FoodSearcher.retrieve_fdc_ids`, `FoodSearcher.nutrition_retrieval` and
  `FoodSearcher.preprocess_nutrients` from `agents/food_search_funcs.py`;
* the ingredient scaling-and-sum block of `food.py`.

External collaborators (the USDA search and detail endpoints, the SBERT
embedding model lending cosine similarities, and fuzzywuzzy's token-set
ratio) are modelled as function parameters: the code treats them as black
boxes, so every theorem is quantified over them.

Numeric values carried by the code are IEEE-754 doubles.  Where only exact
arithmetic matters we use `ℚ`; where the distinction between finite values,
infinities and NaN matters (pandas division by a zero energy column) we use
the idealised float type `FVal` below, which keeps finite values exact and
models the finite/±∞/NaN case structure of IEEE-754 division,
multiplication and addition as used by pandas.
-/

/-- One record returned by the USDA search, as consumed by
`hybrid_match` / `retrieve_fdc_ids`: a Python dict whose relevant fields are
`description`, `brandOwner`, `fdcId` and `foodCategory`; `none` models an
absent key. -/
structure Candidate where
  description : Option String
  brandOwner : Option String
  fdcId : Option Int
  foodCategory : Option (Sum String (Option String))
  deriving DecidableEq, Repr

/-- The comparison string built by `hybrid_match`:
`f"{food['brandOwner']} {description}"` when `branded` and the candidate has
a brand owner, else the bare description; a missing description is read with
default `''` via `food.get('description', '')`. -/
def compareStr (branded : Bool) (food : Candidate) : String :=
  match branded, food.brandOwner with
  | true, some b => b ++ " " ++ food.description.getD ""
  | _, _ => food.description.getD ""

/-- `fuzz.token_set_ratio(item.lower(), compare_str.lower()) / 100.0`,
with the token-set-ratio library call abstracted as `tsr`. -/
def fuzzyScore (tsr : String → String → ℚ) (item cmp : String) : ℚ :=
  tsr item.toLower cmp.toLower / 100

/-- `hybrid_score = (alpha * sbert_score) + ((1 - alpha) * fuzzy_score)`. -/
def hybridScore (alpha sbert fuzzy : ℚ) : ℚ :=
  alpha * sbert + (1 - alpha) * fuzzy

/-- The hybrid score `hybrid_match` computes for one candidate, with the
SBERT cosine similarity abstracted as `sim` (memoisation through
`get_embedding` does not change its value). -/
def candScore (sim tsr : String → String → ℚ) (alpha : ℚ) (item : String)
    (branded : Bool) (food : Candidate) : ℚ :=
  hybridScore alpha (sim item (compareStr branded food))
    (fuzzyScore tsr item (compareStr branded food))

/-- The running-best loop of `hybrid_match`: starting from
`best_idx, best_score = None, 0`, replace the best exactly when
`hybrid_score > best_score`. -/
def bestLoop (score : Candidate → ℚ) :
    List Candidate → Nat → Option Nat → ℚ → Option Nat × ℚ
  | [], _, bi, bs => (bi, bs)
  | food :: rest, idx, bi, bs =>
    if bs < score food then bestLoop score rest (idx + 1) (some idx) (score food)
    else bestLoop score rest (idx + 1) bi bs

/-- `FoodSearcher.hybrid_match`: returns `results[best_idx]` when some
candidate beat the initial score `0`, else Python `None` (here `none`). -/
def hybridMatch (sim tsr : String → String → ℚ) (item : String)
    (results : List Candidate) (branded : Bool) (alpha : ℚ) : Option Candidate :=
  match (bestLoop (candScore sim tsr alpha item branded) results 0 none 0).1 with
  | none => none
  | some i => results.get? i

/-- C1: the hybrid score is `alpha * semantic + (1 - alpha) * lexical`, the
lexical score being the token-set ratio of the lower-cased query and
lower-cased comparison string divided by 100; for every `alpha ∈ [0,1]` and
every candidate it lies within `[min(semantic, lexical), max(semantic,
lexical)]`. -/
theorem hybrid_score_is_convex_blend (sim tsr : String → String → ℚ)
    (alpha : ℚ) (item : String) (branded : Bool) (food : Candidate)
    (h0 : 0 ≤ alpha) (h1 : alpha ≤ 1) :
    candScore sim tsr alpha item branded food =
      hybridScore alpha (sim item (compareStr branded food))
        (tsr item.toLower (compareStr branded food).toLower / 100) ∧
    min (sim item (compareStr branded food))
        (fuzzyScore tsr item (compareStr branded food)) ≤
      candScore sim tsr alpha item branded food ∧
    candScore sim tsr alpha item branded food ≤
      max (sim item (compareStr branded food))
        (fuzzyScore tsr item (compareStr branded food)) := by
  refine ⟨rfl, ?_, ?_⟩ <;>
  · set s := sim item (compareStr branded food) with hs
    set l := fuzzyScore tsr item (compareStr branded food) with hl
    show _
    rcases le_total s l with h | h
    · simp only [candScore, hybridScore, ← hs, ← hl]
      first
      | · rw [min_eq_left h]
          nlinarith [mul_le_mul_of_nonneg_left h h0]
      | · rw [max_eq_right h]
          nlinarith [mul_le_mul_of_nonneg_left h h0]
    · simp only [candScore, hybridScore, ← hs, ← hl]
      first
      | · rw [min_eq_right h]
          nlinarith [mul_le_mul_of_nonneg_left h h0]
      | · rw [max_eq_left h]
          nlinarith [mul_le_mul_of_nonneg_left h h0]

/-- Witness for C1 at `alpha = 1/2`, semantic score `3/4`, token-set ratio
`50` (lexical score `1/2`). -/
theorem hybrid_score_is_convex_blend_spot :
    min ((3 : ℚ) / 4)
        (fuzzyScore (fun _ _ => 50) "apple" (compareStr false ⟨some "apple pie", none, some 7, none⟩)) ≤
      candScore (fun _ _ => (3 : ℚ) / 4) (fun _ _ => 50) (1 / 2) "apple" false
        ⟨some "apple pie", none, some 7, none⟩ :=
  (hybrid_score_is_convex_blend (fun _ _ => (3 : ℚ) / 4) (fun _ _ => 50)
    (1 / 2) "apple" false ⟨some "apple pie", none, some 7, none⟩
    (by norm_num) (by norm_num)).2.1

/-- If no element of the remaining list beats the running best score, the
loop of `hybrid_match` leaves the accumulator unchanged. -/
theorem bestLoop_no_update (score : Candidate → ℚ) (l : List Candidate) :
    ∀ (idx : Nat) (bi : Option Nat) (bs : ℚ), (∀ c ∈ l, score c ≤ bs) →
      bestLoop score l idx bi bs = (bi, bs) := by
  induction l with
  | nil => intro idx bi bs _; rfl
  | cons c rest ih =>
    intro idx bi bs h
    unfold bestLoop
    rw [if_neg (not_lt.mpr (h c (List.mem_cons_self c rest)))]
    exact ih (idx + 1) bi bs (fun x hx => h x (List.mem_cons_of_mem c hx))

/-- The loop of `hybrid_match` lands on the first index whose score attains
the maximum `m`, provided `m` strictly beats the incoming best score. -/
theorem bestLoop_first_max (score : Candidate → ℚ) (l : List Candidate) :
    ∀ (i : Nat) (ci : Candidate) (m : ℚ) (idx : Nat) (bi : Option Nat) (bs : ℚ),
      l.get? i = some ci → score ci = m → bs < m →
      (∀ c ∈ l, score c ≤ m) →
      (∀ j, j < i → ∀ cj, l.get? j = some cj → score cj < m) →
      bestLoop score l idx bi bs = (some (idx + i), m) := by
  induction l with
  | nil => intro i ci m idx bi bs hget; simp at hget
  | cons c rest ih =>
    intro i ci m idx bi bs hget hsc hbs hmax hfirst
    cases i with
    | zero =>
      have hc : c = ci := by simpa using hget
      subst hc
      unfold bestLoop
      rw [if_pos (hsc ▸ hbs), hsc,
        bestLoop_no_update score rest (idx + 1) (some idx) m
          (fun x hx => hmax x (List.mem_cons_of_mem c hx))]
      simp
    | succ j =>
      have hcm : score c < m := hfirst 0 (Nat.succ_pos j) c rfl
      have htail := ih j ci m (idx + 1)
      have hidx : idx + 1 + j = idx + (j + 1) := by omega
      unfold bestLoop
      by_cases hb : bs < score c
      · rw [if_pos hb, htail (some idx) (score c) (by simpa using hget)
          hsc hcm (fun x hx => hmax x (List.mem_cons_of_mem c hx))
          (fun j2 hj2 cj hcj =>
            hfirst (j2 + 1) (Nat.succ_lt_succ hj2) cj (by simpa using hcj)), hidx]
      · rw [if_neg hb, htail bi bs (by simpa using hget)
          hsc hbs (fun x hx => hmax x (List.mem_cons_of_mem c hx))
          (fun j2 hj2 cj hcj =>
            hfirst (j2 + 1) (Nat.succ_lt_succ hj2) cj (by simpa using hcj)), hidx]

/-- C5: `hybrid_match` on an empty candidate list, or one in which no
candidate scores strictly above `0`, returns the explicit "no match" value
(Python `None`), never an error; and a candidate whose `description` key is
missing scores exactly as if its description were the empty string. -/
theorem hybrid_match_no_match (sim tsr : String → String → ℚ) (alpha : ℚ)
    (item : String) (branded : Bool) (results : List Candidate) :
    hybridMatch sim tsr item [] branded alpha = none ∧
    ((∀ c ∈ results, candScore sim tsr alpha item branded c ≤ 0) →
      hybridMatch sim tsr item results branded alpha = none) ∧
    (∀ food : Candidate, food.description = none →
      candScore sim tsr alpha item branded food =
        candScore sim tsr alpha item branded { food with description := some "" }) := by
  refine ⟨rfl, ?_, ?_⟩
  · intro h
    unfold hybridMatch
    rw [bestLoop_no_update _ _ _ _ _ h]
  · intro food hd
    have hcmp : compareStr branded { food with description := some "" } =
        compareStr branded food := by
      unfold compareStr
      cases branded <;> cases hb : food.brandOwner <;> simp [hd, hb]
    unfold candScore
    rw [hcmp]

/-- Candidates and score oracles used in concrete evaluations. -/
def candA : Candidate := ⟨some "apple", none, some 1, none⟩

def candB : Candidate := ⟨some "apple", none, some 2, none⟩

def zeroSim : String → String → ℚ := fun _ _ => 0

/-- Witness for C5: with all-zero similarity oracles every candidate scores
`0`, so `hybrid_match` returns `none`; and a missing description scores as
the empty string. -/
theorem hybrid_match_no_match_spot :
    hybridMatch zeroSim zeroSim "pear" [candA] true (1 / 2) = none ∧
    candScore zeroSim zeroSim (1 / 2) "pear" true ⟨none, some "Acme", some 3, none⟩ =
      candScore zeroSim zeroSim (1 / 2) "pear" true ⟨some "", some "Acme", some 3, none⟩ :=
  ⟨(hybrid_match_no_match zeroSim zeroSim (1 / 2) "pear" true [candA]).2.1
     (by
       intro c hc
       simp only [List.mem_singleton] at hc
       subst hc
       norm_num [candScore, hybridScore, fuzzyScore, zeroSim]),
   (hybrid_match_no_match zeroSim zeroSim (1 / 2) "pear" true [candA]).2.2
     ⟨none, some "Acme", some 3, none⟩ rfl⟩

/-- Counterexample for C9 as stated: `candA` and `candB` have equal hybrid
scores and those scores are the maximum of the list, yet `hybrid_match`
returns `none` (no winner at all), because the maximum does not strictly
exceed the initial best score `0`. -/
theorem hybrid_match_zero_tie_no_winner :
    candScore zeroSim zeroSim (1 / 2) "apple" true candA = 0 ∧
    candScore zeroSim zeroSim (1 / 2) "apple" true candB = 0 ∧
    hybridMatch zeroSim zeroSim "apple" [candA, candB] true (1 / 2) = none := by
  refine ⟨?_, ?_, ?_⟩ <;>
    norm_num [hybridMatch, bestLoop, candScore, hybridScore, fuzzyScore, zeroSim]

/-- C9 amended: when the maximal hybrid score `m` is strictly positive, the
first candidate (in catalog order) attaining `m` is returned; in particular
ties at the maximum are broken in favour of the earlier candidate, since the
running-best comparison is strict. -/
theorem hybrid_match_first_max_wins (sim tsr : String → String → ℚ)
    (alpha : ℚ) (item : String) (branded : Bool) (results : List Candidate)
    (i : Nat) (ci : Candidate) (m : ℚ)
    (hget : results.get? i = some ci)
    (hm : candScore sim tsr alpha item branded ci = m)
    (hpos : 0 < m)
    (hmax : ∀ c ∈ results, candScore sim tsr alpha item branded c ≤ m)
    (hfirst : ∀ j, j < i → ∀ cj, results.get? j = some cj →
      candScore sim tsr alpha item branded cj < m) :
    hybridMatch sim tsr item results branded alpha = some ci := by
  unfold hybridMatch
  rw [bestLoop_first_max (candScore sim tsr alpha item branded) results i ci m
    0 none 0 hget hm hpos hmax hfirst]
  simpa using hget

/-- Witness for C9 amended: with a constant similarity oracle both
candidates score `1/2 > 0`; the tie at the maximum is won by `candA`, the
earlier candidate. -/
theorem hybrid_match_first_max_wins_spot :
    hybridMatch (fun _ _ => (1 : ℚ)) zeroSim "apple" [candA, candB] true (1 / 2) =
      some candA :=
  hybrid_match_first_max_wins (fun _ _ => (1 : ℚ)) zeroSim (1 / 2) "apple" true
    [candA, candB] 0 candA (1 / 2) rfl
    (by norm_num [candScore, hybridScore, fuzzyScore, zeroSim]) (by norm_num)
    (by
      intro c hc
      rcases List.mem_pair.mp hc with h | h <;> subst h <;>
        norm_num [candScore, hybridScore, fuzzyScore, zeroSim])
    (fun j hj => absurd hj (Nat.not_lt_zero j))

/-- Python dict assignment `d[k] = v`: replaces the value at an existing key
in place, else appends the new binding (insertion order preserved). -/
def dictSet {κ α : Type} [DecidableEq κ] : List (κ × α) → κ → α → List (κ × α)
  | [], k, v => [(k, v)]
  | (k2, v2) :: rest, k, v =>
    if k2 = k then (k, v) :: rest else (k2, v2) :: dictSet rest k v

/-- Python dict lookup: `d[k]` / `k in d`, as an option. -/
def dictGet {κ α : Type} [DecidableEq κ] : List (κ × α) → κ → Option α
  | [], _ => none
  | (k2, v2) :: rest, k => if k2 = k then some v2 else dictGet rest k

theorem dictGet_dictSet_self {κ α : Type} [DecidableEq κ]
    (d : List (κ × α)) (k : κ) (v : α) : dictGet (dictSet d k v) k = some v := by
  induction d with
  | nil => simp [dictSet, dictGet]
  | cons p rest ih =>
    by_cases h : p.1 = k <;> simp [dictSet, dictGet, h, ih]

theorem dictGet_dictSet_ne {κ α : Type} [DecidableEq κ]
    (d : List (κ × α)) (k k2 : κ) (v : α) (h : k2 ≠ k) :
    dictGet (dictSet d k v) k2 = dictGet d k2 := by
  induction d with
  | nil => simp [dictSet, dictGet, Ne.symm h]
  | cons p rest ih =>
    obtain ⟨pk, pv⟩ := p
    by_cases hp : pk = k
    · subst hp
      simp [dictSet, dictGet, Ne.symm h]
    · simp [dictSet, dictGet, hp, ih]

/-- The persisted `ResultCache` of `FoodSearcher`: `self.cache`, a dict from
query string to raw candidate list. -/
structure SearchState where
  cache : List (String × List Candidate)
  deriving DecidableEq

/-- `FoodSearcher.search_usda`, with the external USDA search abstracted as
`api` (`none` models a non-200 response).  Returns the candidate list, the
new cache state, and how many external calls were made (`1` on a cache miss,
`0` on a hit).  A successful lookup is written to the cache; a failed lookup
returns `[]` and is not cached. -/
def searchUsda (api : String → Option (List Candidate)) (st : SearchState)
    (item : String) : List Candidate × SearchState × Nat :=
  match dictGet st.cache item with
  | some res => (res, st, 0)
  | none =>
    match api item with
    | some results => (results, ⟨dictSet st.cache item results⟩, 1)
    | none => ([], st, 1)

/-- An external search that always fails (non-200 status). -/
def failApi : String → Option (List Candidate) := fun _ => none

/-- Counterexample for C2 as stated: when the external search fails, the
result is not cached, so two consecutive resolutions of the same query make
two external calls, not at most one. -/
theorem search_usda_retries_failed_lookup :
    (searchUsda failApi ⟨[]⟩ "chicken breast").2.2 +
      (searchUsda failApi (searchUsda failApi ⟨[]⟩ "chicken breast").2.1
        "chicken breast").2.2 = 2 := rfl

/-- C2 amended: two consecutive resolutions of the same query string make at
most one external call, provided the external search succeeds for that query
(a failed search is not cached and is retried); the second resolution makes
no external call and reads back exactly the first resolution's candidate
list from the cache. -/
theorem search_usda_at_most_one_call (api : String → Option (List Candidate))
    (st : SearchState) (item : String) (res : List Candidate)
    (h : api item = some res) :
    (searchUsda api st item).2.2 +
      (searchUsda api (searchUsda api st item).2.1 item).2.2 ≤ 1 ∧
    (searchUsda api (searchUsda api st item).2.1 item).2.2 = 0 ∧
    (searchUsda api (searchUsda api st item).2.1 item).1 =
      (searchUsda api st item).1 := by
  cases hc : dictGet st.cache item with
  | some v => simp [searchUsda, hc]
  | none => simp [searchUsda, hc, h, dictGet_dictSet_self]

/-- Witness for C2 amended with a succeeding external search on an empty
cache. -/
theorem search_usda_at_most_one_call_spot :
    (searchUsda (fun _ => some [candA]) ⟨[]⟩ "rice").2.2 +
      (searchUsda (fun _ => some [candA])
        (searchUsda (fun _ => some [candA]) ⟨[]⟩ "rice").2.1 "rice").2.2 ≤ 1 :=
  (search_usda_at_most_one_call (fun _ => some [candA]) ⟨[]⟩ "rice" [candA] rfl).1

/-- One row appended by `retrieve_fdc_ids`:
`found` mirrors the full dict (its `fdcId` is `none` when the candidate had
no `fdcId` key and the Python code stored the default string `'N/A'`);
`noMatch` mirrors `{"food_item": item, "fdcId": None, "description": "No
match found"}`; `noResults` mirrors `{"food_item": item, "fdcId": None,
"description": "No results from USDA"}`. -/
inductive FdcRow where
  | found (food_item : String) (fdcId : Option Int)
      (description brandOwner foodCategory : String)
  | noMatch (food_item : String)
  | noResults (food_item : String)
  deriving DecidableEq, Repr

def FdcRow.food_item : FdcRow → String
  | .found s _ _ _ _ => s
  | .noMatch s => s
  | .noResults s => s

/-- The `foodCategory` extraction of `retrieve_fdc_ids`: default `'N/A'`
when the key is missing; when the value is a dict, its `description` field
(default `'N/A'`); else the string itself. -/
def categoryStr (c : Candidate) : String :=
  match c.foodCategory with
  | none => "N/A"
  | some (Sum.inl s) => s
  | some (Sum.inr d) => d.getD "N/A"

/-- The body of the `for item in food_list` loop of
`FoodSearcher.retrieve_fdc_ids` for one query: search (through the cache),
then `hybrid_match`, producing exactly one row. -/
def resolveOne (api : String → Option (List Candidate))
    (sim tsr : String → String → ℚ) (branded : Bool) (alpha : ℚ)
    (st : SearchState) (item : String) : FdcRow × SearchState :=
  let r := searchUsda api st item
  if r.1.isEmpty then (FdcRow.noResults item, r.2.1)
  else
    match hybridMatch sim tsr item r.1 branded alpha with
    | some bm =>
      (FdcRow.found item bm.fdcId (bm.description.getD "N/A")
        (bm.brandOwner.getD "N/A") (categoryStr bm), r.2.1)
    | none => (FdcRow.noMatch item, r.2.1)

/-- `FoodSearcher.retrieve_fdc_ids`: one row per query, in input order,
threading the result cache through the loop. -/
def retrieveFdcIds (api : String → Option (List Candidate))
    (sim tsr : String → String → ℚ) (branded : Bool) (alpha : ℚ) :
    SearchState → List String → List FdcRow × SearchState
  | st, [] => ([], st)
  | st, item :: rest =>
    let r := resolveOne api sim tsr branded alpha st item
    let t := retrieveFdcIds api sim tsr branded alpha r.2 rest
    (r.1 :: t.1, t.2)

theorem retrieveFdcIds_length (api : String → Option (List Candidate))
    (sim tsr : String → String → ℚ) (branded : Bool) (alpha : ℚ)
    (food_list : List String) :
    ∀ st, (retrieveFdcIds api sim tsr branded alpha st food_list).1.length =
      food_list.length := by
  induction food_list with
  | nil => intro st; rfl
  | cons a rest ih => intro st; simp [retrieveFdcIds, ih]

/-- Each output row of `retrieve_fdc_ids` is the row `resolveOne` produces
for the query at the same position, for some intermediate cache state. -/
theorem retrieveFdcIds_get (api : String → Option (List Candidate))
    (sim tsr : String → String → ℚ) (branded : Bool) (alpha : ℚ)
    (food_list : List String) :
    ∀ st i item, food_list.get? i = some item →
      ∃ st2, (retrieveFdcIds api sim tsr branded alpha st food_list).1.get? i =
        some (resolveOne api sim tsr branded alpha st2 item).1 := by
  induction food_list with
  | nil => intro st i item h; simp at h
  | cons a rest ih =>
    intro st i item h
    cases i with
    | zero =>
      have ha : a = item := by simpa using h
      subst ha
      exact ⟨st, by simp [retrieveFdcIds]⟩
    | succ j =>
      obtain ⟨st2, hst2⟩ :=
        ih (resolveOne api sim tsr branded alpha st a).2 j item (by simpa using h)
      exact ⟨st2, by simpa [retrieveFdcIds] using hst2⟩

/-- C4: `retrieve_fdc_ids` returns exactly one row per query in input order;
each row comes from the single-query step; a query whose search returned
zero candidates yields the "No results from USDA" row, a query with
candidates but no positive-scoring match yields the "No match found" row,
and these two rows are distinct values; the whole computation is a total
function (no raised error aborts the batch). -/
theorem retrieve_fdc_ids_per_query (api : String → Option (List Candidate))
    (sim tsr : String → String → ℚ) (branded : Bool) (alpha : ℚ)
    (st : SearchState) (food_list : List String) :
    (retrieveFdcIds api sim tsr branded alpha st food_list).1.length =
      food_list.length ∧
    (∀ i item, food_list.get? i = some item →
      ∃ st2, (retrieveFdcIds api sim tsr branded alpha st food_list).1.get? i =
        some (resolveOne api sim tsr branded alpha st2 item).1) ∧
    (∀ st2 item, (resolveOne api sim tsr branded alpha st2 item).1.food_item = item) ∧
    (∀ st2 item, (searchUsda api st2 item).1 = [] →
      (resolveOne api sim tsr branded alpha st2 item).1 = FdcRow.noResults item) ∧
    (∀ st2 item, (searchUsda api st2 item).1 ≠ [] →
      hybridMatch sim tsr item (searchUsda api st2 item).1 branded alpha = none →
      (resolveOne api sim tsr branded alpha st2 item).1 = FdcRow.noMatch item) ∧
    (∀ s1 s2 : String, FdcRow.noResults s1 ≠ FdcRow.noMatch s2) := by
  refine ⟨retrieveFdcIds_length api sim tsr branded alpha food_list st,
    retrieveFdcIds_get api sim tsr branded alpha food_list st, ?_, ?_, ?_, ?_⟩
  · intro st2 item
    unfold resolveOne
    dsimp only
    split
    · rfl
    · split <;> rfl
  · intro st2 item h
    simp [resolveOne, h]
  · intro st2 item h hm
    cases hl : (searchUsda api st2 item).1 with
    | nil => exact absurd hl h
    | cons x xs =>
      rw [hl] at hm
      simp [resolveOne, hl, hm]
  · intro s1 s2 h
    exact FdcRow.noConfusion h

/-- A concrete search used in the C4 witness: one candidate for
"chicken breast", a successful but empty response for "salmon". -/
def chickenApi : String → Option (List Candidate) := fun s =>
  if s = "chicken breast"
  then some [⟨some "Chicken Breast", some "Acme", some 42, none⟩]
  else some []

/-- Witness for C4 on the query list `["chicken breast", "salmon"]` where
the search for "salmon" returns zero candidates: two rows come back and the
salmon row is the "No results from USDA" marker, distinct from "No match
found". -/
theorem retrieve_fdc_ids_per_query_spot :
    (retrieveFdcIds chickenApi (fun _ _ => (1 : ℚ)) zeroSim true (1 / 2) ⟨[]⟩
      ["chicken breast", "salmon"]).1.length = 2 ∧
    (resolveOne chickenApi (fun _ _ => (1 : ℚ)) zeroSim true (1 / 2) ⟨[]⟩
      "salmon").1 = FdcRow.noResults "salmon" ∧
    FdcRow.noResults "salmon" ≠ FdcRow.noMatch "salmon" :=
  ⟨(retrieve_fdc_ids_per_query chickenApi (fun _ _ => (1 : ℚ)) zeroSim true
      (1 / 2) ⟨[]⟩ ["chicken breast", "salmon"]).1,
   (retrieve_fdc_ids_per_query chickenApi (fun _ _ => (1 : ℚ)) zeroSim true
      (1 / 2) ⟨[]⟩ ["chicken breast", "salmon"]).2.2.2.1 ⟨[]⟩ "salmon" rfl,
   (retrieve_fdc_ids_per_query chickenApi (fun _ _ => (1 : ℚ)) zeroSim true
      (1 / 2) ⟨[]⟩ ["chicken breast", "salmon"]).2.2.2.2.2 "salmon" "salmon"⟩

/-- `nutrient_list` of `FoodSearcher.nutrition_retrieval`: the keys of the
zero-initialised per-item dict (the 13 canonical nutrient keys plus
`fdcID`). -/
def nutrient_list : List String :=
  ["trans_fat", "sat_fat", "cholesterol", "sodium", "carbs",
   "fiber", "sugars", "protein", "vit_a", "vit_c",
   "calcium", "iron", "energy", "fdcID"]

/-- The 13 canonical nutrient keys (spec §3, `nutrient_list` without the
identifier column). -/
def canonicalKeys : List String :=
  ["trans_fat", "sat_fat", "cholesterol", "sodium", "carbs",
   "fiber", "sugars", "protein", "vit_a", "vit_c",
   "calcium", "iron", "energy"]

/-- The `id_to_key` table of `nutrition_retrieval` mapping external USDA
nutrient ids to canonical keys. -/
def idTable : List (Nat × String) :=
  [(1257, "trans_fat"), (1258, "sat_fat"), (1253, "cholesterol"),
   (1093, "sodium"), (1005, "carbs"), (1079, "fiber"),
   (2000, "sugars"), (1003, "protein"), (1104, "vit_a"),
   (1162, "vit_c"), (1087, "calcium"), (1089, "iron"),
   (1008, "energy")]

def idToKey (id : Nat) : Option String := dictGet idTable id

/-- `nutrients = {key: 0 for key in nutrient_list}`. -/
def initNutrients : List (String × ℚ) := nutrient_list.map (fun k => (k, 0))

/-- The nutrient-mapping portion of the per-item body of
`nutrition_retrieval`: zero-initialise all keys, store the identifier under
`fdcID`, then walk `foodNutrients`, overwriting the canonical key for every
recognised nutrient id and silently dropping unknown ids. -/
def extractProfile (fdcID : Int) (payload : List (Nat × ℚ)) : List (String × ℚ) :=
  payload.foldl
    (fun d p =>
      match idToKey p.1 with
      | some key => dictSet d key p.2
      | none => d)
    (dictSet initNutrients "fdcID" (fdcID : ℚ))

theorem mem_of_dictGet {κ α : Type} [DecidableEq κ]
    (d : List (κ × α)) (k : κ) (v : α) (h : dictGet d k = some v) : (k, v) ∈ d := by
  induction d with
  | nil => simp [dictGet] at h
  | cons p rest ih =>
    obtain ⟨pk, pv⟩ := p
    by_cases hp : pk = k
    · subst hp
      simp [dictGet] at h
      simp [h]
    · simp [dictGet, hp] at h
      exact List.mem_cons_of_mem _ (ih h)

theorem mem_dictSet {κ α : Type} [DecidableEq κ]
    (d : List (κ × α)) (k : κ) (v : α) (p : κ × α) (h : p ∈ dictSet d k v) :
    p = (k, v) ∨ p ∈ d := by
  induction d with
  | nil => simpa [dictSet] using h
  | cons q rest ih =>
    obtain ⟨qk, qv⟩ := q
    by_cases hq : qk = k
    · subst hq
      simp [dictSet] at h
      rcases h with h | h
      · exact Or.inl h
      · exact Or.inr (List.mem_cons_of_mem _ h)
    · simp [dictSet, hq] at h
      rcases h with h | h
      · exact Or.inr (by simp [h])
      · rcases ih h with h2 | h2
        · exact Or.inl h2
        · exact Or.inr (List.mem_cons_of_mem _ h2)

theorem dictGet_dictSet_isSome {κ α : Type} [DecidableEq κ]
    (d : List (κ × α)) (k k2 : κ) (v : α) (h : (dictGet d k2).isSome = true) :
    (dictGet (dictSet d k v) k2).isSome = true := by
  by_cases hk : k2 = k
  · subst hk
    simp [dictGet_dictSet_self]
  · rwa [dictGet_dictSet_ne d k k2 v hk]

/-- The dict built by `nutrition_retrieval` keeps every `nutrient_list` key
present, and never holds a key outside `nutrient_list`. -/
def profInv (d : List (String × ℚ)) : Prop :=
  (∀ k ∈ nutrient_list, (dictGet d k).isSome = true) ∧
  (∀ p ∈ d, p.1 ∈ nutrient_list)

theorem idToKey_mem (n : Nat) (key : String) (h : idToKey n = some key) :
    key ∈ nutrient_list := by
  have hm : (n, key) ∈ idTable := mem_of_dictGet idTable n key h
  have : ∀ p ∈ idTable, p.2 ∈ nutrient_list := by decide
  exact this (n, key) hm

theorem foldl_preserves {α β : Type} (f : α → β → α) (P : α → Prop)
    (hf : ∀ d b, P d → P (f d b)) :
    ∀ (l : List β) (d : α), P d → P (l.foldl f d) := by
  intro l
  induction l with
  | nil => intro d hd; exact hd
  | cons b rest ih => intro d hd; exact ih (f d b) (hf d b hd)

theorem extractProfile_inv (fdcID : Int) (payload : List (Nat × ℚ)) :
    profInv (extractProfile fdcID payload) := by
  have hinit : profInv (dictSet initNutrients "fdcID" (fdcID : ℚ)) := by
    constructor
    · intro k hk
      by_cases hke : k = "fdcID"
      · subst hke
        simp [dictGet_dictSet_self]
      · rw [dictGet_dictSet_ne initNutrients "fdcID" k (fdcID : ℚ) hke]
        have hall : ∀ k2 ∈ nutrient_list, (dictGet initNutrients k2).isSome = true := by
          decide
        exact hall k hk
    · intro p hp
      rcases mem_dictSet initNutrients "fdcID" (fdcID : ℚ) p hp with h | h
      · rw [h]
        show "fdcID" ∈ nutrient_list
        decide
      · have : ∀ q ∈ initNutrients, q.1 ∈ nutrient_list := by decide
        exact this p h
  have hstep : ∀ (d : List (String × ℚ)) (p : Nat × ℚ), profInv d →
      profInv (match idToKey p.1 with
        | some key => dictSet d key p.2
        | none => d) := by
    intro d p hd
    cases hik : idToKey p.1 with
    | none => exact hd
    | some key =>
      constructor
      · intro k hk
        exact dictGet_dictSet_isSome d key k p.2 (hd.1 k hk)
      · intro q hq
        rcases mem_dictSet d key p.2 q hq with h | h
        · subst h
          exact idToKey_mem p.1 key hik
        · exact hd.2 q h
  exact foldl_preserves _ profInv hstep payload _ hinit

/-- A payload in which no nutrient id is recognised leaves the
zero-initialised dict untouched (apart from the stored identifier). -/
theorem extractProfile_unknown (fdcID : Int) :
    ∀ (payload : List (Nat × ℚ)), (∀ p ∈ payload, idToKey p.1 = none) →
      extractProfile fdcID payload = dictSet initNutrients "fdcID" (fdcID : ℚ) := by
  intro payload
  induction payload with
  | nil => intro _; rfl
  | cons p rest ih =>
    intro h
    have hp := h p (List.mem_cons_self p rest)
    have hr := fun q hq => h q (List.mem_cons_of_mem p hq)
    unfold extractProfile
    simp only [List.foldl_cons, hp]
    exact ih hr

/-- C6: the profile built by `nutrition_retrieval` for any nutrient payload
has every canonical nutrient key present; a payload with zero recognised
nutrient ids leaves every canonical key equal to `0`; and unknown external
nutrient ids are dropped silently — no key outside `nutrient_list` is ever
inserted. -/
theorem nutrient_extractor_canonical (fdcID : Int) (payload : List (Nat × ℚ)) :
    (∀ k ∈ canonicalKeys, (dictGet (extractProfile fdcID payload) k).isSome = true) ∧
    ((∀ p ∈ payload, idToKey p.1 = none) →
      ∀ k ∈ canonicalKeys, dictGet (extractProfile fdcID payload) k = some 0) ∧
    (∀ p ∈ extractProfile fdcID payload, p.1 ∈ nutrient_list) := by
  refine ⟨?_, ?_, (extractProfile_inv fdcID payload).2⟩
  · intro k hk
    have hsub : ∀ k2 ∈ canonicalKeys, k2 ∈ nutrient_list := by decide
    exact (extractProfile_inv fdcID payload).1 k (hsub k hk)
  · intro h k hk
    rw [extractProfile_unknown fdcID payload h]
    fin_cases hk <;>
      · rw [dictGet_dictSet_ne initNutrients "fdcID" _ _ (by decide)]
        decide

/-- Witness for C6: the external id `9999` is unrecognised, so `protein`
stays at its zero default. -/
theorem nutrient_extractor_canonical_spot :
    dictGet (extractProfile 7 [(9999, 5)]) "protein" = some 0 :=
  (nutrient_extractor_canonical 7 [(9999, 5)]).2.1 (by decide) "protein" (by decide)

/-- The `descriptors` DataFrame argument of `nutrition_retrieval`:
`hasFdcId` records whether the frame has an `fdcId` column at all (the
default `pd.DataFrame(columns=['description'])` does not), and `rows` pairs
each `fdcId` cell with its `description` cell. -/
structure DescFrame where
  hasFdcId : Bool
  rows : List (Int × String)
  deriving DecidableEq, Repr

/-- The default `descriptors = pd.DataFrame(columns=['description'])`: a
frame with no `fdcId` column and no rows. -/
def defaultDescriptors : DescFrame := ⟨false, []⟩

/-- The name-assignment step
`descriptors['description'][descriptors['fdcId'] == nutrients['fdcID']].iloc[0]`:
raises `KeyError` when the frame has no `fdcId` column, raises `IndexError`
when no row matches the identifier, else yields the first matching
description. -/
def nameLookup (d : DescFrame) (fdcID : Int) : Except String String :=
  if d.hasFdcId = false then Except.error "KeyError: fdcId"
  else
    match d.rows.find? (fun r => r.1 == fdcID) with
    | none => Except.error "IndexError: single positional indexer is out-of-bounds"
    | some r => Except.ok r.2

/-- `FoodSearcher.nutrition_retrieval`, with the external per-identifier
nutrient lookup abstracted as `api` (`none` models a non-200 response, which
the code skips with a printed message).  An exception raised by the
name-assignment step propagates and aborts the whole batch, which the
`Except.error` case models. -/
def nutritionRetrieval (api : Int → Option (List (Nat × ℚ))) (descriptors : DescFrame) :
    List Int → Except String (List (List (String × ℚ) × String))
  | [] => Except.ok []
  | fdcID :: rest =>
    match api fdcID with
    | none => nutritionRetrieval api descriptors rest
    | some payload =>
      match nameLookup descriptors fdcID with
      | Except.error e => Except.error e
      | Except.ok nm =>
        match nutritionRetrieval api descriptors rest with
        | Except.error e => Except.error e
        | Except.ok tail => Except.ok ((extractProfile fdcID payload, nm) :: tail)

theorem nameLookup_error (d : DescFrame) (fdcID : Int)
    (h : d.hasFdcId = false ∨ fdcID ∉ d.rows.map Prod.fst) :
    ∃ e, nameLookup d fdcID = Except.error e := by
  rcases h with h | h
  · exact ⟨"KeyError: fdcId", by simp [nameLookup, h]⟩
  · by_cases hc : d.hasFdcId = false
    · exact ⟨"KeyError: fdcId", by simp [nameLookup, hc]⟩
    · have hf : d.rows.find? (fun r => r.1 == fdcID) = none := by
        rw [List.find?_eq_none]
        intro x hx
        simp only [beq_iff_eq]
        intro hx1
        exact h (List.mem_map.mpr ⟨x, hx, hx1⟩)
      exact ⟨"IndexError: single positional indexer is out-of-bounds",
        by simp [nameLookup, hc, hf]⟩

/-- C10: `nutrition_retrieval` has an undocumented precondition on
`descriptors`: as soon as any identifier in the batch gets a successful
external lookup while the frame lacks an `fdcId` column (as the default
argument does) or lacks a row for that identifier, the name-assignment step
raises and the whole batch aborts with an error instead of returning
per-item results. -/
theorem nutrition_retrieval_descriptor_precondition
    (api : Int → Option (List (Nat × ℚ))) (d : DescFrame) (fdcIDs : List Int)
    (id : Int) (hmem : id ∈ fdcIDs) (hsucc : (api id).isSome = true)
    (habsent : d.hasFdcId = false ∨ id ∉ d.rows.map Prod.fst) :
    (∃ e, nutritionRetrieval api d fdcIDs = Except.error e) ∧
    defaultDescriptors.hasFdcId = false := by
  refine ⟨?_, rfl⟩
  induction fdcIDs with
  | nil => simp at hmem
  | cons a rest ih =>
    rcases List.mem_cons.mp hmem with h | h
    · subst h
      cases hapi : api id with
      | none => rw [hapi] at hsucc; simp at hsucc
      | some payload =>
        obtain ⟨e, he⟩ := nameLookup_error d id habsent
        exact ⟨e, by simp [nutritionRetrieval, hapi, he]⟩
    · obtain ⟨e, he⟩ := ih h
      cases hapi : api a with
      | none => exact ⟨e, by simp [nutritionRetrieval, hapi, he]⟩
      | some payload =>
        cases hnl : nameLookup d a with
        | error e2 => exact ⟨e2, by simp [nutritionRetrieval, hapi, hnl]⟩
        | ok nm => exact ⟨e, by simp [nutritionRetrieval, hapi, hnl, he]⟩

/-- Witness for C10: a single identifier with a successful (empty) nutrient
payload, resolved against the default descriptors frame, aborts the batch. -/
theorem nutrition_retrieval_descriptor_precondition_spot :
    ∃ e, nutritionRetrieval (fun _ => some []) defaultDescriptors [1] =
      Except.error e :=
  (nutrition_retrieval_descriptor_precondition (fun _ => some [])
    defaultDescriptors [1] 1 (List.mem_singleton.mpr rfl) rfl (Or.inl rfl)).1

/-- Idealised IEEE-754 double as produced by pandas arithmetic: exact
rational finite values plus the two infinities and NaN (sign of zero and
rounding are not modelled; no claim here depends on them). -/
inductive FVal where
  | finite (q : ℚ)
  | posInf
  | negInf
  | nan
  deriving DecidableEq, Repr

def FVal.isNan : FVal → Bool
  | nan => true
  | _ => false

/-- IEEE-754 division as performed by `df[col] / df['energy']`: a nonzero
finite value divided by zero gives a signed infinity, `0/0` gives NaN —
pandas raises nothing. -/
def FVal.div : FVal → FVal → FVal
  | nan, _ => nan
  | _, nan => nan
  | finite a, finite b =>
    if b = 0 then (if a = 0 then nan else if 0 < a then posInf else negInf)
    else finite (a / b)
  | finite _, posInf => finite 0
  | finite _, negInf => finite 0
  | posInf, finite b => if 0 ≤ b then posInf else negInf
  | negInf, finite b => if 0 ≤ b then negInf else posInf
  | posInf, posInf => nan
  | posInf, negInf => nan
  | negInf, posInf => nan
  | negInf, negInf => nan

/-- IEEE-754 multiplication (`scaled.iloc[i, :-1] *= grams / 100`). -/
def FVal.mul : FVal → FVal → FVal
  | nan, _ => nan
  | _, nan => nan
  | finite a, finite b => finite (a * b)
  | finite a, posInf => if a = 0 then nan else if 0 < a then posInf else negInf
  | finite a, negInf => if a = 0 then nan else if 0 < a then negInf else posInf
  | posInf, finite b => if b = 0 then nan else if 0 < b then posInf else negInf
  | negInf, finite b => if b = 0 then nan else if 0 < b then negInf else posInf
  | posInf, posInf => posInf
  | posInf, negInf => negInf
  | negInf, posInf => negInf
  | negInf, negInf => posInf

/-- IEEE-754 addition (column summation). -/
def FVal.add : FVal → FVal → FVal
  | nan, _ => nan
  | _, nan => nan
  | finite a, finite b => finite (a + b)
  | finite _, posInf => posInf
  | posInf, finite _ => posInf
  | finite _, negInf => negInf
  | negInf, finite _ => negInf
  | posInf, posInf => posInf
  | negInf, negInf => negInf
  | posInf, negInf => nan
  | negInf, posInf => nan

/-- The 13 canonical nutrient columns of the DataFrame built by
`nutrition_retrieval` (in column order; `fdcID` and `name` follow). -/
inductive Nutrient where
  | trans_fat
  | sat_fat
  | cholesterol
  | sodium
  | carbs
  | fiber
  | sugars
  | protein
  | vit_a
  | vit_c
  | calcium
  | iron
  | energy
  deriving DecidableEq, Repr

/-- One row of the nutrition DataFrame: the 13 nutrient columns, the
`fdcID` column and the `name` column. -/
structure Row where
  nut : Nutrient → FVal
  fdcID : FVal
  name : String

/-- The column list of `preprocess_nutrients`:
`['protein', 'fiber', 'trans_fat', 'sat_fat', 'sugars', 'calcium', 'vit_c',
'sodium']`. -/
def normCols : List Nutrient :=
  [Nutrient.protein, Nutrient.fiber, Nutrient.trans_fat, Nutrient.sat_fat,
   Nutrient.sugars, Nutrient.calcium, Nutrient.vit_c, Nutrient.sodium]

/-- `FoodSearcher.preprocess_nutrients`: for each column in `normCols`,
`df[col] = df[col] / df['energy']` (the energy column itself is never in
the list, so each division reads the original energy). -/
def preprocessRow (r : Row) : Row :=
  { r with
    nut := normCols.foldl
      (fun f col => fun k => if k = col then FVal.div (f k) (f Nutrient.energy) else f k)
      r.nut }

/-- Closed form of the column loop of `preprocess_nutrients`. -/
theorem preprocessRow_nut (r : Row) (k : Nutrient) :
    (preprocessRow r).nut k =
      if k ∈ normCols then FVal.div (r.nut k) (r.nut Nutrient.energy)
      else r.nut k := by
  cases k <;> rfl

/-- C7: on a profile with nonzero finite energy, `preprocess_nutrients`
divides exactly the `normCols` columns (protein, fiber, trans fat,
saturated fat, sugars, calcium, vitamin C, sodium) by the energy value and
leaves every other column — energy itself, carbs, cholesterol, vitamin A,
iron — and the identifier and name unchanged. -/
theorem preprocess_divides_selected (r : Row) (e : ℚ)
    (he : r.nut Nutrient.energy = FVal.finite e) (hne : e ≠ 0) :
    (∀ k ∈ normCols, ∀ q : ℚ, r.nut k = FVal.finite q →
      (preprocessRow r).nut k = FVal.finite (q / e)) ∧
    (∀ k, k ∉ normCols → (preprocessRow r).nut k = r.nut k) ∧
    (preprocessRow r).fdcID = r.fdcID ∧
    (preprocessRow r).name = r.name := by
  refine ⟨?_, ?_, rfl, rfl⟩
  · intro k hk q hq
    rw [preprocessRow_nut, if_pos hk, hq, he]
    simp [FVal.div, hne]
  · intro k hk
    rw [preprocessRow_nut, if_neg hk]

/-- The profile of the normalization-correctness scenario:
`energy = 200`, `protein = 20`. -/
def row200 : Row :=
  { nut := fun k =>
      match k with
      | Nutrient.energy => FVal.finite 200
      | Nutrient.protein => FVal.finite 20
      | _ => FVal.finite 0,
    fdcID := FVal.finite 1,
    name := "chicken" }

/-- Witness for C7: with `energy = 200` and `protein = 20`, the normalized
protein is `0.1`. -/
theorem preprocess_divides_selected_spot :
    (preprocessRow row200).nut Nutrient.protein = FVal.finite (1 / 10) := by
  have h := (preprocess_divides_selected row200 200 rfl (by norm_num)).1
    Nutrient.protein (by decide) 20 rfl
  rw [show (20 : ℚ) / 200 = 1 / 10 by norm_num] at h
  exact h

/-- A zero-energy profile (`energy = 0`, `sugars = 0`, everything else
`20`). -/
def rowZeroE : Row :=
  { nut := fun k =>
      match k with
      | Nutrient.energy => FVal.finite 0
      | Nutrient.sugars => FVal.finite 0
      | _ => FVal.finite 20,
    fdcID := FVal.finite 1,
    name := "zero energy" }

/-- Counterexample for C3 as stated: `preprocess_nutrients` on a
zero-energy profile does not fail or surface any error condition — it
returns a profile carrying non-finite values (`+∞` for the positive
numerators, NaN for `0/0`). -/
theorem preprocess_zero_energy_returns_nonfinite :
    (preprocessRow rowZeroE).nut Nutrient.protein = FVal.posInf ∧
    (preprocessRow rowZeroE).nut Nutrient.sugars = FVal.nan := by
  exact ⟨rfl, rfl⟩

/-- C3 amended: `preprocess_nutrients` applied to a profile whose energy is
zero silently produces non-finite values in the returned profile (a signed
infinity for a nonzero numerator, NaN for a zero numerator); no
division-by-zero condition is raised or otherwise surfaced to the caller. -/
theorem preprocess_zero_energy_silent (r : Row) (k : Nutrient) (q : ℚ)
    (hk : k ∈ normCols) (he : r.nut Nutrient.energy = FVal.finite 0)
    (hq : r.nut k = FVal.finite q) :
    (preprocessRow r).nut k =
      if q = 0 then FVal.nan else if 0 < q then FVal.posInf else FVal.negInf := by
  rw [preprocessRow_nut, if_pos hk, hq, he]
  simp [FVal.div]

/-- Witness for C3 amended at the `trans_fat` column of the zero-energy
profile. -/
theorem preprocess_zero_energy_silent_spot :
    (preprocessRow rowZeroE).nut Nutrient.trans_fat = FVal.posInf := by
  have h := preprocess_zero_energy_silent rowZeroE Nutrient.trans_fat 20
    (by decide) rfl rfl
  rw [h]
  norm_num

/-- `scaled.iloc[i, :-1] *= (grams / 100)` for one row: every column except
`name` — the nutrient columns and `fdcID` — is multiplied by the gram
factor. -/
def scaleRow (grams : ℚ) (r : Row) : Row :=
  { r with
    nut := fun k => FVal.mul (r.nut k) (FVal.finite (grams / 100)),
    fdcID := FVal.mul r.fdcID (FVal.finite (grams / 100)) }

/-- pandas column summation (`.sum(numeric_only=True)`): NaN entries are
skipped (`skipna` default) and the empty sum is `0`. -/
def pandasSum (xs : List FVal) : FVal :=
  (xs.filter (fun x => !x.isNan)).foldr FVal.add (FVal.finite 0)

/-- The combined profile of the main block of `food.py`: scale each
ingredient row by its gram weight over 100, drop `fdcID`, and sum each
remaining numeric column across rows. -/
def combineNutrients (portions : List (ℚ × Row)) (k : Nutrient) : FVal :=
  pandasSum (portions.map (fun p => (scaleRow p.1 p.2).nut k))

/-- C8: aggregation is linear in the gram weights — the empty combination
is `0`, a portion with a finite value contributes exactly
`value * (grams / 100)` to the column sum — and consequently two portions
of one profile at 50 g and 150 g combine to the same profile as a single
portion of it at 200 g (for every canonical column, whatever its value,
infinities and NaN included). -/
theorem aggregation_linear (k : Nutrient) :
    combineNutrients [] k = FVal.finite 0 ∧
    (∀ (g q : ℚ) (row : Row) (rest : List (ℚ × Row)),
      row.nut k = FVal.finite q →
      combineNutrients ((g, row) :: rest) k =
        FVal.add (FVal.finite (q * (g / 100))) (combineNutrients rest k)) ∧
    (∀ r : Row, combineNutrients [(50, r), (150, r)] k =
      combineNutrients [(200, r)] k) := by
  refine ⟨rfl, ?_, ?_⟩
  · intro g q row rest h
    simp [combineNutrients, pandasSum, scaleRow, h, FVal.mul, FVal.isNan,
      List.filter_cons]
  · intro r
    cases hr : r.nut k with
    | finite q =>
      norm_num [combineNutrients, pandasSum, scaleRow, hr, FVal.mul, FVal.add,
        FVal.isNan, List.filter_cons]
      ring_nf
    | posInf =>
      norm_num [combineNutrients, pandasSum, scaleRow, hr, FVal.mul, FVal.add,
        FVal.isNan, List.filter_cons]
    | negInf =>
      norm_num [combineNutrients, pandasSum, scaleRow, hr, FVal.mul, FVal.add,
        FVal.isNan, List.filter_cons]
    | nan =>
      norm_num [combineNutrients, pandasSum, scaleRow, hr, FVal.mul, FVal.add,
        FVal.isNan, List.filter_cons]

/-- Witness for C8: one 100 g portion of the `energy = 200` profile
contributes `20 * (100/100)` protein to the combined column. -/
theorem aggregation_linear_spot :
    combineNutrients [((100 : ℚ), row200)] Nutrient.protein =
      FVal.add (FVal.finite (20 * (100 / 100)))
        (combineNutrients [] Nutrient.protein) :=
  (aggregation_linear Nutrient.protein).2.1 100 20 row200 [] rfl
